import Mathlib

/-!
# LevelEditor UI components: localizable text, sprite component, button

A shallow embedding of

* `src/ui/components/LocalizableTextComponent.cpp`
* `src/ui/components/TextComponent.hpp`
* `src/ui/components/SpriteComponent.hpp`
* `src/ui/controls/Button.cpp`

C++ objects become Lean structures, member functions become functions from the
object state to the new object state.  A nullable pointer is an `Option`.
`float` is a type parameter `F`: no property below depends on floating point
arithmetic, coordinates are only stored and passed on.
-/

namespace le

/-! ## Library types -/

/-- The `sf::Vector2f` pair of coordinates over the scalar type `F`. -/
structure Vector2f (F : Type) where
  x : F
  y : F
deriving DecidableEq, Repr

/-- The `sf::Vector2u` pair of unsigned coordinates. -/
structure Vector2u where
  x : Nat
  y : Nat
deriving DecidableEq, Repr

/-- The `sf::IntRect` sub-rectangle of a texture. -/
structure IntRect where
  left : Int
  top : Int
  width : Int
  height : Int
deriving DecidableEq, Repr

/-! ## Strings table -/

/-- Modelled from the spec: the `Strings` table type, whose declaration is not
part of the sources.  The spec describes it as "a mapping from key strings to
localized display strings", read-only for the components; the code uses its
members `contains` and `at`.  The mapping is kept as a list of entries in which
the first entry of a key is the one that counts. -/
structure Strings where
  entries : List (String × String)
deriving DecidableEq, Repr

/-- The value `T[k]` of the table at a key, if the key has one. -/
def Strings.find (t : Strings) (key : String) : Option String :=
  t.entries.lookup key

/-- The member `contains(key)`. -/
def Strings.contains (t : Strings) (key : String) : Bool :=
  (t.find key).isSome

/-- The member `at(key)`; the C++ member throws on a key the table does not
contain, so the embedding asks for the evidence that the key is there. -/
def Strings.atKey (t : Strings) (key : String) (h : t.contains key = true) : String :=
  (t.find key).get h

/-! ## TextComponent -/

/-- The state of `le::TextComponent` (`TextComponent.hpp`, member data): the
size, the string of the `sf::Text` member `m_text`, the text offset and the
style pointer, together with the position of the `sf::Transformable` base.
The render surface (`m_sprite`, `m_renderTexture`, `m_clearColor`) is a cache
composited from these fields and is not part of the model. -/
structure TextComponent (F Style : Type) where
  position : Vector2f F
  m_size : Vector2u
  m_text : String
  m_textOffset : Vector2f F
  m_style : Option Style
deriving DecidableEq, Repr

/-- Modelled from the spec: the constructor
`TextComponent(position, size, style, string, textOffset)`, declared in
`TextComponent.hpp` and defined outside the sources; the header documents
`string` as the "String assigned to the text" and `size` as fixed at
construction. -/
def TextComponent.new {F Style : Type} (position : Vector2f F) (size : Vector2u)
    (style : Option Style) (string : String) (textOffset : Vector2f F) :
    TextComponent F Style :=
  { position := position, m_size := size, m_text := string,
    m_textOffset := textOffset, m_style := style }

/-- Modelled from the spec: `TextComponent::setString`, declared in
`TextComponent.hpp` and defined outside the sources.  By the spec it "replaces
the displayed text" and recomposites the surface; the displayed text is the
only modelled field it writes. -/
def TextComponent.setString {F Style : Type} (c : TextComponent F Style)
    (string : String) : TextComponent F Style :=
  { c with m_text := string }

/-! ## LocalizableTextComponent -/

/-- The state of `le::LocalizableTextComponent`: the `TextComponent` base, the
raw key `m_string` and the pointer `m_strings` to the strings table. -/
structure LocalizableTextComponent (F Style : Type) extends TextComponent F Style where
  m_string : String
  m_strings : Option Strings
deriving DecidableEq, Repr

namespace LocalizableTextComponent

variable {F Style : Type}

/-- The displayed text: the string last forwarded to `TextComponent::setString`
(or given to the base constructor). -/
def displayedText (c : LocalizableTextComponent F Style) : String :=
  c.m_text

/-- A key misses when the component has no table or its table lacks the key. -/
def Misses (c : LocalizableTextComponent F Style) (key : String) : Prop :=
  c.m_strings = none ∨ ∃ t, c.m_strings = some t ∧ t.contains key = false

/-- `LocalizableTextComponent::applyTextChanges`
(`LocalizableTextComponent.cpp`, lines 64-71). -/
def applyTextChanges (c : LocalizableTextComponent F Style) :
    LocalizableTextComponent F Style :=
  match c.m_strings with
  | some strings =>
    if h : strings.contains c.m_string = true then
      let text := strings.atKey c.m_string h
      { c with toTextComponent := c.toTextComponent.setString text }
    else c
  | none => c

/-- `LocalizableTextComponent::setString`
(`LocalizableTextComponent.cpp`, lines 56-60). -/
def setString (c : LocalizableTextComponent F Style) (string : String) :
    LocalizableTextComponent F Style :=
  applyTextChanges { c with m_string := string }

/-- The constructor `LocalizableTextComponent(position, size, style, strings,
string, textOffset)` (`LocalizableTextComponent.cpp`, lines 45-52): the base
is built with the empty string, `m_string` is default-constructed, and the
body calls `setString(string)`. -/
def new (position : Vector2f F) (size : Vector2u) (style : Option Style)
    (strings : Option Strings) (string : String) (textOffset : Vector2f F) :
    LocalizableTextComponent F Style :=
  setString
    { toTextComponent := TextComponent.new position size style "" textOffset,
      m_string := "", m_strings := strings }
    string

/-- The calls `setString(k1); ...; setString(kn)` made in this order on one
component. -/
def setStrings (c : LocalizableTextComponent F Style) (keys : List String) :
    LocalizableTextComponent F Style :=
  keys.foldl setString c

end LocalizableTextComponent

/-! ## SpriteComponent -/

/-- The `sf::Sprite` primitive: a texture (by handle), the sub-rectangle of the
texture it shows and its position. -/
structure Sprite (F : Type) where
  texture : Nat
  textureRect : IntRect
  position : Vector2f F
deriving DecidableEq, Repr

/-- The state of `le::SpriteComponent` (`SpriteComponent.hpp`, member data):
the default sprite, the optional alternative sprite and the flag that
"indicates whether to use the alternative sprite or not". -/
structure SpriteComponent (F : Type) where
  m_spriteDefault : Sprite F
  m_spriteAlt : Option (Sprite F)
  m_useAlt : Bool
deriving DecidableEq, Repr

namespace SpriteComponent

variable {F : Type}

/-- Modelled from the spec: the constructor `SpriteComponent(position, texture,
sprite)`, declared in `SpriteComponent.hpp` as the "SpriteComponent without the
alternative sprite" and defined outside the sources. -/
def newDefault (position : Vector2f F) (texture : Nat) (sprite : IntRect) :
    SpriteComponent F :=
  { m_spriteDefault := ⟨texture, sprite, position⟩, m_spriteAlt := none, m_useAlt := false }

/-- Modelled from the spec: the constructor `SpriteComponent(position, texture,
spriteDefault, spriteAlt, useAlt)`, declared in `SpriteComponent.hpp` and
defined outside the sources; the alternative sprite "is initialized only if
the corresponding sf::IntRect was provided". -/
def newBoth (position : Vector2f F) (texture : Nat) (spriteDefault : IntRect)
    (spriteAlt : Option IntRect) (useAlt : Bool) : SpriteComponent F :=
  { m_spriteDefault := ⟨texture, spriteDefault, position⟩,
    m_spriteAlt := spriteAlt.map fun r => ⟨texture, r, position⟩,
    m_useAlt := useAlt }

/-- Modelled from the spec: `SpriteComponent::setUseAlt`, declared in
`SpriteComponent.hpp` and defined outside the sources.  By the spec it "sets
the selection flag but only has effect if an alternate sprite exists". -/
def setUseAlt (s : SpriteComponent F) (useAlt : Bool) : SpriteComponent F :=
  { s with m_useAlt := useAlt }

/-- Modelled from the spec: `SpriteComponent::getCurrent`, declared in
`SpriteComponent.hpp` and defined outside the sources.  By the spec it "returns
whichever sprite is active", and "if no alternate sprite was supplied, the
active flag is ignored and the default is always drawn". -/
def getCurrent (s : SpriteComponent F) : Sprite F :=
  match s.m_spriteAlt with
  | some alt => if s.m_useAlt then alt else s.m_spriteDefault
  | none => s.m_spriteDefault

end SpriteComponent

/-! ## TextBasedControl and Button -/

/-- The `sf::Mouse::Button` enumeration. -/
inductive MouseButton where
  | Left | Right | Middle | XButton1 | XButton2
deriving DecidableEq, Repr

/-- The state `Button` inherits from `TextBasedControl`.  `Button.cpp` uses
the members `m_sprite`, `m_text` and `m_holding`; whatever else the base class
keeps (the enabled flag, the hover state) is `m_base`, of a type `R` the
sources do not declare. -/
structure TextBasedControl (F Style R : Type) where
  m_sprite : SpriteComponent F
  m_text : LocalizableTextComponent F Style
  m_holding : Bool
  m_base : R
deriving DecidableEq, Repr

/-- The handlers of `TextBasedControl` that `Button` overrides and calls
first.  They are defined outside the sources and are parameters of the
embedding: each is a function on the inherited state. -/
structure BaseHandlers (F Style R : Type) where
  onClicked : MouseButton → Vector2f F → TextBasedControl F Style R → TextBasedControl F Style R
  onReleasedControl :
    MouseButton → Vector2f F → TextBasedControl F Style R → TextBasedControl F Style R
  onEntered : Vector2f F → TextBasedControl F Style R → TextBasedControl F Style R
  onLeft : Vector2f F → TextBasedControl F Style R → TextBasedControl F Style R

/-- A base-class handler that leaves the two sprites of the control as they
are (it may still move the selection flag). -/
def KeepsSprites {F Style R : Type}
    (f : TextBasedControl F Style R → TextBasedControl F Style R) : Prop :=
  ∀ s, (f s).m_sprite.m_spriteDefault = s.m_sprite.m_spriteDefault ∧
    (f s).m_sprite.m_spriteAlt = s.m_sprite.m_spriteAlt

/-- Modelled from the spec: the pointer-interaction handlers of
`TextBasedControl`, which are not part of the sources.  The spec summarises
them as "Idle → Hover (on enter) → Holding (on press) → Hover-or-Idle (on
release) → Idle (on leave)", where re-entering while still holding is
possible; the remaining base state is the hover flag. -/
def specHandlers (F Style : Type) : BaseHandlers F Style Bool where
  onClicked := fun _ _ s => { s with m_holding := true }
  onReleasedControl := fun _ _ s => { s with m_holding := false }
  onEntered := fun _ s => { s with m_base := true }
  onLeft := fun _ s => { s with m_base := false }

/-- The state of `le::Button`: the inherited state and the two callback slots
`m_onReleased` and `m_onHold`, of the type `Event0<Button>` that the sources
do not declare (`E`). -/
structure Button (F Style R E : Type) extends TextBasedControl F Style R where
  m_onReleased : E
  m_onHold : E
deriving DecidableEq, Repr

/-- The two callback slots of a button. -/
inductive Slot where
  | onReleased | onHold
deriving DecidableEq, Repr

/-- One call of a callback slot: the slot and the button passed as `*this`,
in the state it has when the call is made.  The list a handler returns holds
the calls made by the handler's own statements. -/
structure Invocation (F Style R E : Type) where
  slot : Slot
  arg : Button F Style R E
deriving DecidableEq, Repr

/-- The call operator of `Event0<Button>`, a type the sources do not declare:
`call e b` is the button as the callback `e` leaves it when it is run on the
button `b`.  A callback is client code and receives the live object, so it is a
parameter of the handlers that call a slot. -/
abbrev Event0Call (F Style R E : Type) : Type :=
  E → Button F Style R E → Button F Style R E

namespace Button

variable {F Style R E : Type}

/-- `Button::onHold` (`Button.cpp`, lines 57-60): the only statement runs the
slot `m_onHold` on this button.  The result is the state the callback leaves
and the callback calls made. -/
def onHold (call : Event0Call F Style R E) (b : Button F Style R E) :
    Button F Style R E × List (Invocation F Style R E) :=
  (call b.m_onHold b, [⟨Slot.onHold, b⟩])

/-- `Button::onClicked` (`Button.cpp`, lines 64-68). -/
def onClicked (base : BaseHandlers F Style R) (b : Button F Style R E)
    (button : MouseButton) (worldPos : Vector2f F) : Button F Style R E :=
  let b1 := { b with toTextBasedControl := base.onClicked button worldPos b.toTextBasedControl }
  { b1 with m_sprite := b1.m_sprite.setUseAlt true }

/-- `Button::onReleasedControl` (`Button.cpp`, lines 72-77): the base-class
handler, then `setUseAlt(false)`, then the slot `m_onReleased` run on this
button as the last statement.  The result is the state the callback leaves and
the callback calls made. -/
def onReleasedControl (call : Event0Call F Style R E) (base : BaseHandlers F Style R)
    (b : Button F Style R E) (button : MouseButton) (worldPos : Vector2f F) :
    Button F Style R E × List (Invocation F Style R E) :=
  let b1 :=
    { b with toTextBasedControl := base.onReleasedControl button worldPos b.toTextBasedControl }
  let b2 := { b1 with m_sprite := b1.m_sprite.setUseAlt false }
  (call b2.m_onReleased b2, [⟨Slot.onReleased, b2⟩])

/-- `Button::onEntered` (`Button.cpp`, lines 81-85). -/
def onEntered (base : BaseHandlers F Style R) (b : Button F Style R E)
    (worldPos : Vector2f F) : Button F Style R E :=
  let b1 := { b with toTextBasedControl := base.onEntered worldPos b.toTextBasedControl }
  { b1 with m_sprite := b1.m_sprite.setUseAlt b1.m_holding }

/-- `Button::onLeft` (`Button.cpp`, lines 89-93). -/
def onLeft (base : BaseHandlers F Style R) (b : Button F Style R E)
    (worldPos : Vector2f F) : Button F Style R E :=
  let b1 := { b with toTextBasedControl := base.onLeft worldPos b.toTextBasedControl }
  { b1 with m_sprite := b1.m_sprite.setUseAlt false }

end Button

/-! ## Sample objects -/

/-- The strings table of the spec's scenario. -/
def sampleStrings : Strings := ⟨[("ok", "OK")]⟩

/-- A localizable text built over the sample table with the key `ok`. -/
def sampleText : LocalizableTextComponent Int Nat :=
  LocalizableTextComponent.new ⟨0, 0⟩ ⟨64, 16⟩ (some 0) (some sampleStrings) "ok" ⟨0, 0⟩

/-- A localizable text that has no strings table. -/
def sampleTextNoTable : LocalizableTextComponent Int Nat :=
  LocalizableTextComponent.new ⟨0, 0⟩ ⟨64, 16⟩ (some 0) none "ok" ⟨0, 0⟩

/-- A sprite component without the alternative sprite. -/
def sampleSpriteDefault : SpriteComponent Int :=
  SpriteComponent.newDefault ⟨0, 0⟩ 1 ⟨0, 0, 32, 32⟩

/-- A sprite component with both sprites. -/
def sampleSpriteBoth : SpriteComponent Int :=
  SpriteComponent.newBoth ⟨0, 0⟩ 1 ⟨0, 0, 32, 32⟩ (some ⟨32, 0, 32, 32⟩) false

/-- A button with both sprites, not holding, the pointer outside; the callback
slots are named by numbers. -/
def sampleButton : Button Int Nat Bool Nat :=
  { m_sprite := sampleSpriteBoth, m_text := sampleText, m_holding := false, m_base := false,
    m_onReleased := 1, m_onHold := 2 }

theorem Strings.contains_of_find {t : Strings} {key v : String} (h : t.find key = some v) :
    t.contains key = true := by
  simp [Strings.contains, h]

theorem Strings.atKey_of_find {t : Strings} {key v : String} (h : t.find key = some v)
    (hc : t.contains key = true) : t.atKey key hc = v := by
  simp [Strings.atKey, h]

theorem Strings.find_atKey (t : Strings) (key : String) (hc : t.contains key = true) :
    t.find key = some (t.atKey key hc) := by
  simp [Strings.atKey]

namespace LocalizableTextComponent

variable {F Style : Type}

theorem setString_hit (c : LocalizableTextComponent F Style) (key : String) (t : Strings)
    (v : String) (ht : c.m_strings = some t) (hv : t.find key = some v) :
    c.setString key =
      { c with m_string := key, toTextComponent := c.toTextComponent.setString v } := by
  have hc : t.contains key = true := Strings.contains_of_find hv
  simp only [setString, applyTextChanges, ht, hc, dite_true, Strings.atKey_of_find hv]

theorem setString_miss (c : LocalizableTextComponent F Style) (key : String)
    (h : c.Misses key) : c.setString key = { c with m_string := key } := by
  rcases h with h | ⟨t, ht, hc⟩
  · simp only [setString, applyTextChanges, h]
  · simp [setString, applyTextChanges, ht, hc]

theorem setString_m_string (c : LocalizableTextComponent F Style) (key : String) :
    (c.setString key).m_string = key := by
  unfold setString applyTextChanges
  split
  · split <;> rfl
  · rfl

theorem setString_m_strings (c : LocalizableTextComponent F Style) (key : String) :
    (c.setString key).m_strings = c.m_strings := by
  unfold setString applyTextChanges
  split
  · split <;> rfl
  · rfl

theorem setStrings_append (c : LocalizableTextComponent F Style) (pre post : List String) :
    c.setStrings (pre ++ post) = (c.setStrings pre).setStrings post := by
  simp [setStrings, List.foldl_append]

theorem setStrings_m_strings (c : LocalizableTextComponent F Style) (keys : List String) :
    (c.setStrings keys).m_strings = c.m_strings := by
  induction keys generalizing c with
  | nil => rfl
  | cons k ks ih =>
    show ((c.setString k).setStrings ks).m_strings = c.m_strings
    rw [ih, setString_m_strings]

theorem setStrings_all_miss (c : LocalizableTextComponent F Style) (t : Strings)
    (ht : c.m_strings = some t) (keys : List String)
    (h : ∀ k ∈ keys, t.contains k = false) :
    (c.setStrings keys).displayedText = c.displayedText := by
  induction keys generalizing c with
  | nil => rfl
  | cons k ks ih =>
    show ((c.setString k).setStrings ks).displayedText = c.displayedText
    have hk : t.contains k = false := h k (List.mem_cons_self k ks)
    have hts : (c.setString k).m_strings = some t := by rw [setString_m_strings, ht]
    rw [ih (c.setString k) hts (fun k2 hk2 => h k2 (List.mem_cons_of_mem k hk2)),
      setString_miss c k (Or.inr ⟨t, ht, hk⟩)]
    rfl

end LocalizableTextComponent

/-! ## Claims -/

/-- C1: after `LocalizableTextComponent::setString(k)`, if a table `T` is
present and contains `k`, the displayed text is `T[k]`; if the table is absent
or does not contain `k`, the displayed text is the one before the call. -/
theorem C1_setString_displayedText {F Style : Type} (c : LocalizableTextComponent F Style)
    (k : String) :
    (∀ T v, c.m_strings = some T → T.find k = some v → (c.setString k).displayedText = v) ∧
    (∀ T (h : T.contains k = true), c.m_strings = some T →
      (c.setString k).displayedText = T.atKey k h) ∧
    (c.m_strings = none → (c.setString k).displayedText = c.displayedText) ∧
    (∀ T, c.m_strings = some T → T.contains k = false →
      (c.setString k).displayedText = c.displayedText) := by
  refine ⟨?_, ?_, ?_, ?_⟩
  · intro T v hT hv
    rw [LocalizableTextComponent.setString_hit c k T v hT hv]
    rfl
  · intro T h hT
    rw [LocalizableTextComponent.setString_hit c k T _ hT (Strings.find_atKey T k h)]
    rfl
  · intro hT
    rw [LocalizableTextComponent.setString_miss c k (Or.inl hT)]
    rfl
  · intro T hT hk
    rw [LocalizableTextComponent.setString_miss c k (Or.inr ⟨T, hT, hk⟩)]
    rfl

/-- C1 at the sample text (table `ok ↦ OK`, displayed text `OK`): the key
`ok` is a hit, the key `missing` is a miss that keeps the text `OK`, and
without a table the text stays empty. -/
theorem C1_setString_displayedText_witness :
    (sampleText.setString "ok").displayedText = "OK" ∧
    (sampleText.setString "missing").displayedText = sampleText.displayedText ∧
    (sampleTextNoTable.setString "ok").displayedText = sampleTextNoTable.displayedText :=
  ⟨(C1_setString_displayedText sampleText "ok").1 sampleStrings "OK" (by decide) (by decide),
   (C1_setString_displayedText sampleText "missing").2.2.2 sampleStrings (by decide) (by decide),
   (C1_setString_displayedText sampleTextNoTable "ok").2.2.1 (by decide)⟩

/-- C2: a `LocalizableTextComponent` constructed with `(position, size, style,
T, k, offset)` displays `T[k]` when `T` contains `k` and the empty string
otherwise; with `T = {"ok":"OK"}` the key `ok` gives `OK` and the key
`missing` gives the empty string. -/
theorem C2_new_displayedText {F Style : Type} (position : Vector2f F) (size : Vector2u)
    (style : Option Style) (T : Strings) (k : String) (offset : Vector2f F) :
    ((LocalizableTextComponent.new position size style (some T) k offset).displayedText =
      match T.find k with
      | some v => v
      | none => "") ∧
    (LocalizableTextComponent.new position size style (some ⟨[("ok", "OK")]⟩) "ok"
      offset).displayedText = "OK" ∧
    (LocalizableTextComponent.new position size style (some ⟨[("ok", "OK")]⟩) "missing"
      offset).displayedText = "" := by
  have key : ∀ (T : Strings) (k : String),
      (LocalizableTextComponent.new position size style (some T) k offset).displayedText =
        match T.find k with
        | some v => v
        | none => "" := by
    intro T k
    unfold LocalizableTextComponent.new
    cases hf : T.find k with
    | some v =>
      rw [LocalizableTextComponent.setString_hit _ k T v rfl hf]
      rfl
    | none =>
      rw [LocalizableTextComponent.setString_miss _ k
        (Or.inr ⟨T, rfl, by simp [Strings.contains, hf]⟩)]
      rfl
  refine ⟨key T k, ?_, ?_⟩
  · rw [key]; decide
  · rw [key]; decide

/-- C3: for a `SpriteComponent` without an alternative sprite and every
boolean `b`, `setUseAlt(b)` followed by `getCurrent()` returns the default
sprite. -/
theorem C3_getCurrent_without_alt {F : Type} (s : SpriteComponent F)
    (h : s.m_spriteAlt = none) (b : Bool) :
    (s.setUseAlt b).getCurrent = s.m_spriteDefault := by
  simp [SpriteComponent.setUseAlt, SpriteComponent.getCurrent, h]

/-- C3 at a component built by the constructor without the alternative sprite,
with `setUseAlt(true)`. -/
theorem C3_getCurrent_without_alt_witness :
    sampleSpriteDefault.m_spriteAlt = none ∧
    (sampleSpriteDefault.setUseAlt true).getCurrent = ⟨1, ⟨0, 0, 32, 32⟩, ⟨0, 0⟩⟩ :=
  ⟨by decide, C3_getCurrent_without_alt sampleSpriteDefault (by decide) true⟩

/-- C4: for a `SpriteComponent` with an alternative sprite, `getCurrent()`
returns the alternative sprite after `setUseAlt(true)` and the default sprite
after `setUseAlt(false)`, whatever the flag was before: the result depends
only on the last `setUseAlt` argument. -/
theorem C4_getCurrent_with_alt {F : Type} (s : SpriteComponent F) (alt : Sprite F)
    (h : s.m_spriteAlt = some alt) :
    (s.setUseAlt true).getCurrent = alt ∧
    (s.setUseAlt false).getCurrent = s.m_spriteDefault ∧
    (∀ b0 b, ((s.setUseAlt b0).setUseAlt b).getCurrent = (s.setUseAlt b).getCurrent) := by
  refine ⟨?_, ?_, ?_⟩
  · simp [SpriteComponent.setUseAlt, SpriteComponent.getCurrent, h]
  · simp [SpriteComponent.setUseAlt, SpriteComponent.getCurrent, h]
  · intro b0 b
    rfl

/-- C4 at a component built with both sprites. -/
theorem C4_getCurrent_with_alt_witness :
    (sampleSpriteBoth.setUseAlt true).getCurrent = ⟨1, ⟨32, 0, 32, 32⟩, ⟨0, 0⟩⟩ ∧
    (sampleSpriteBoth.setUseAlt false).getCurrent = ⟨1, ⟨0, 0, 32, 32⟩, ⟨0, 0⟩⟩ :=
  have h := C4_getCurrent_with_alt sampleSpriteBoth ⟨1, ⟨32, 0, 32, 32⟩, ⟨0, 0⟩⟩ (by decide)
  ⟨h.1, h.2.1⟩

/-- C6: for every button state, holding or not, and every base-class handler,
after `onLeft` the sprite selection flag is false and `getCurrent()` returns
the default sprite. -/
theorem C6_onLeft_default {F Style R E : Type} (base : BaseHandlers F Style R)
    (b : Button F Style R E) (worldPos : Vector2f F) :
    (b.onLeft base worldPos).m_sprite.m_useAlt = false ∧
    (b.onLeft base worldPos).m_sprite.getCurrent
      = (b.onLeft base worldPos).m_sprite.m_spriteDefault ∧
    (b.onLeft base worldPos).m_sprite.m_spriteDefault
      = (base.onLeft worldPos b.toTextBasedControl).m_sprite.m_spriteDefault := by
  refine ⟨rfl, ?_, rfl⟩
  simp only [Button.onLeft, SpriteComponent.setUseAlt, SpriteComponent.getCurrent]
  split <;> simp

/-- C7: calling `LocalizableTextComponent::setString(k)` twice in a row leaves
the same component, hence the same stored key and the same displayed text, as
calling it once. -/
theorem C7_setString_idempotent {F Style : Type} (c : LocalizableTextComponent F Style)
    (k : String) :
    (c.setString k).setString k = c.setString k ∧
    ((c.setString k).setString k).m_string = (c.setString k).m_string ∧
    ((c.setString k).setString k).displayedText = (c.setString k).displayedText := by
  have h : (c.setString k).setString k = c.setString k := by
    cases hs : c.m_strings with
    | none =>
      have h1 := LocalizableTextComponent.setString_miss c k (Or.inl hs)
      rw [h1]
      exact LocalizableTextComponent.setString_miss _ k (Or.inl hs)
    | some t =>
      cases hf : t.find k with
      | none =>
        have hc : t.contains k = false := by simp [Strings.contains, hf]
        have h1 := LocalizableTextComponent.setString_miss c k (Or.inr ⟨t, hs, hc⟩)
        rw [h1]
        exact LocalizableTextComponent.setString_miss _ k (Or.inr ⟨t, hs, hc⟩)
      | some v =>
        have h1 := LocalizableTextComponent.setString_hit c k t v hs hf
        rw [h1]
        exact LocalizableTextComponent.setString_hit _ k t v hs hf
  exact ⟨h, by rw [h], by rw [h]⟩

/-- C8: after `onEntered` the sprite selection flag equals the holding flag as
left by the base-class handler; for a button with an alternative sprite
`getCurrent()` is then the alternative sprite if the button is holding and the
default sprite if it is not.  The base-class handler is any that leaves the
two sprites in place. -/
theorem C8_onEntered_follows_holding {F Style R E : Type} (base : BaseHandlers F Style R)
    (b : Button F Style R E) (alt : Sprite F) (worldPos : Vector2f F)
    (hbase : KeepsSprites (base.onEntered worldPos))
    (halt : b.m_sprite.m_spriteAlt = some alt) :
    (b.onEntered base worldPos).m_sprite.m_useAlt
      = (base.onEntered worldPos b.toTextBasedControl).m_holding ∧
    (b.onEntered base worldPos).m_holding
      = (base.onEntered worldPos b.toTextBasedControl).m_holding ∧
    ((b.onEntered base worldPos).m_holding = true →
      (b.onEntered base worldPos).m_sprite.getCurrent = alt) ∧
    ((b.onEntered base worldPos).m_holding = false →
      (b.onEntered base worldPos).m_sprite.getCurrent = b.m_sprite.m_spriteDefault) := by
  have h1 := hbase b.toTextBasedControl
  refine ⟨rfl, rfl, ?_, ?_⟩
  · intro hh
    have hh2 : (base.onEntered worldPos b.toTextBasedControl).m_holding = true := hh
    simp [Button.onEntered, SpriteComponent.setUseAlt, SpriteComponent.getCurrent, h1.2, halt,
      hh2]
  · intro hh
    have hh2 : (base.onEntered worldPos b.toTextBasedControl).m_holding = false := hh
    simp [Button.onEntered, SpriteComponent.setUseAlt, SpriteComponent.getCurrent, h1.2, h1.1,
      halt, hh2]

/-- C8 at the sample button, once still holding and once not, with the pointer
handlers of the spec. -/
theorem C8_onEntered_follows_holding_witness :
    (({ sampleButton with m_holding := true }).onEntered (specHandlers Int Nat)
      ⟨3, 4⟩).m_sprite.getCurrent = ⟨1, ⟨32, 0, 32, 32⟩, ⟨0, 0⟩⟩ ∧
    (sampleButton.onEntered (specHandlers Int Nat) ⟨3, 4⟩).m_sprite.getCurrent
      = ⟨1, ⟨0, 0, 32, 32⟩, ⟨0, 0⟩⟩ :=
  ⟨(C8_onEntered_follows_holding (specHandlers Int Nat) { sampleButton with m_holding := true }
      ⟨1, ⟨32, 0, 32, 32⟩, ⟨0, 0⟩⟩ ⟨3, 4⟩ (fun _ => ⟨rfl, rfl⟩) (by decide)).2.2.1 (by decide),
   (C8_onEntered_follows_holding (specHandlers Int Nat) sampleButton
      ⟨1, ⟨32, 0, 32, 32⟩, ⟨0, 0⟩⟩ ⟨3, 4⟩ (fun _ => ⟨rfl, rfl⟩) (by decide)).2.2.2 (by decide)⟩

/-- C9: on a miss (the table is absent or does not contain `k`),
`LocalizableTextComponent::setString(k)` changes only the stored raw key: the
stored key is `k` afterwards and the displayed text, the table reference, the
offset, the style, the size and the position are unchanged. -/
theorem C9_setString_miss_frame {F Style : Type} (c : LocalizableTextComponent F Style)
    (k : String) (h : c.Misses k) :
    c.setString k = { c with m_string := k } ∧
    (c.setString k).m_string = k ∧
    (c.setString k).displayedText = c.displayedText ∧
    (c.setString k).m_strings = c.m_strings ∧
    (c.setString k).m_textOffset = c.m_textOffset ∧
    (c.setString k).m_style = c.m_style ∧
    (c.setString k).m_size = c.m_size ∧
    (c.setString k).position = c.position := by
  have h1 := LocalizableTextComponent.setString_miss c k h
  rw [h1]
  exact ⟨rfl, rfl, rfl, rfl, rfl, rfl, rfl, rfl⟩

/-- C9 at the sample text, which displays `OK`: the key `missing` is stored and
the text `OK` stays, no fallback text replaces it. -/
theorem C9_setString_miss_frame_witness :
    (sampleText.setString "missing").m_string = "missing" ∧
    (sampleText.setString "missing").displayedText = "OK" :=
  have h := C9_setString_miss_frame sampleText "missing"
    (Or.inr ⟨sampleStrings, by decide, by decide⟩)
  ⟨h.2.1, h.2.2.1.trans (by decide)⟩

/-- C11: for a fixed strings table `T` and keys `k1..kn` passed to
`LocalizableTextComponent::setString` in this order, the final displayed text
is `T[kj]` for the last key `kj` of the sequence that `T` contains, and the
initial displayed text if `T` contains none of them; the stored raw key is
`kn`.  The stored key and the displayed text can thus disagree: after the keys
`ok`, `missing` on the table `ok ↦ OK` the stored key is `missing` and the
text is still `OK`. -/
theorem C11_setStrings_last_hit {F Style : Type} (c : LocalizableTextComponent F Style)
    (T : Strings) (hT : c.m_strings = some T) (keys : List String) :
    (∀ pre kj post v, keys = pre ++ kj :: post → T.find kj = some v →
      (∀ k ∈ post, T.contains k = false) → (c.setStrings keys).displayedText = v) ∧
    ((∀ k ∈ keys, T.contains k = false) →
      (c.setStrings keys).displayedText = c.displayedText) ∧
    (∀ kn, keys.getLast? = some kn → (c.setStrings keys).m_string = kn) ∧
    ((sampleText.setStrings ["ok", "missing"]).m_string = "missing" ∧
      (sampleText.setStrings ["ok", "missing"]).displayedText = "OK") := by
  refine ⟨?_, ?_, ?_, ?_⟩
  · intro pre kj post v hks hv hpost
    have h1 : c.setStrings keys = ((c.setStrings pre).setString kj).setStrings post := by
      rw [hks, LocalizableTextComponent.setStrings_append]
      rfl
    have hpre : (c.setStrings pre).m_strings = some T := by
      rw [LocalizableTextComponent.setStrings_m_strings, hT]
    have hmid : ((c.setStrings pre).setString kj).m_strings = some T := by
      rw [LocalizableTextComponent.setString_m_strings, hpre]
    rw [h1, LocalizableTextComponent.setStrings_all_miss _ T hmid post hpost,
      LocalizableTextComponent.setString_hit _ kj T v hpre hv]
    rfl
  · intro hall
    exact LocalizableTextComponent.setStrings_all_miss c T hT keys hall
  · intro kn hlast
    obtain ⟨init, hinit⟩ : ∃ init, keys = init ++ [kn] := by
      exact ⟨keys.dropLast, (List.dropLast_append_getLast? kn hlast).symm⟩
    rw [hinit, LocalizableTextComponent.setStrings_append]
    exact LocalizableTextComponent.setString_m_string _ kn
  · decide

/-- C11 at the sample text (table `ok ↦ OK`) and the keys `missing`, `ok`,
`absent`: the last key the table contains is `ok`, so the text is `OK`, and
the stored key is `absent`. -/
theorem C11_setStrings_last_hit_witness :
    (sampleText.setStrings ["missing", "ok", "absent"]).displayedText = "OK" ∧
    (sampleText.setStrings ["missing", "ok", "absent"]).m_string = "absent" :=
  have h := C11_setStrings_last_hit sampleText sampleStrings (by decide)
    ["missing", "ok", "absent"]
  ⟨h.1 ["missing"] "ok" ["absent"] "OK" (by decide) (by decide) (by decide),
   h.2.2.1 "absent" (by decide)⟩

/-- C12: in `Button::onReleasedControl` the on-released callback runs last: it
is the only callback call, and the button it receives has the state left by
the base-class release handler with the sprite selection flag already false;
`getCurrent()` on that button is its default sprite.  Nothing runs after the
callback: the final state is the one the callback of this button leaves when
run on that button. -/
theorem C12_onReleased_runs_last {F Style R E : Type} (call : Event0Call F Style R E)
    (base : BaseHandlers F Style R) (b : Button F Style R E) (button : MouseButton)
    (worldPos : Vector2f F) :
    ∃ inv, (b.onReleasedControl call base button worldPos).2 = [inv] ∧
      inv.slot = Slot.onReleased ∧
      (b.onReleasedControl call base button worldPos).1 = call b.m_onReleased inv.arg ∧
      inv.arg.m_onReleased = b.m_onReleased ∧
      inv.arg.toTextBasedControl =
        { base.onReleasedControl button worldPos b.toTextBasedControl with
          m_sprite :=
            (base.onReleasedControl button worldPos b.toTextBasedControl).m_sprite.setUseAlt
              false } ∧
      inv.arg.m_holding
        = (base.onReleasedControl button worldPos b.toTextBasedControl).m_holding ∧
      inv.arg.m_sprite.m_useAlt = false ∧
      inv.arg.m_sprite.getCurrent = inv.arg.m_sprite.m_spriteDefault := by
  refine ⟨_, rfl, rfl, rfl, rfl, rfl, rfl, rfl, ?_⟩
  simp only [SpriteComponent.setUseAlt, SpriteComponent.getCurrent]
  split <;> simp

end le
